import Mathlib

/-
  Shallow embedding of the HJM inventory application (src/app.py).

  Numbers: the source works on Python floats; quantities and totals are
  modelled as exact rationals, and Python round(x, 3) (round half to even
  to three decimal places) is modelled by roundTo3 below.

  Dates: the source parses the Date column with pandas to_datetime; the
  two parser attempts (format mixed, then the fallback %Y-%m-%d) are
  modelled as parameters of type String -> Option Int. Parsing is
  all-or-nothing, as pandas raises on the first bad cell.

  The sort performed by data.sort_values (app.py line 119) is embedded as
  a stable insertion sort on the parsed date, which is the tie policy the
  specification adopts; the stability question itself is treated in the
  discussion of the corresponding claim.
-/

namespace HJM

/- The Batteries rational arithmetic operations are irreducible by
   default; making them semireducible lets concrete tables be evaluated
   by decide. -/
attribute [local semireducible] Rat.mul Rat.add Rat.sub Rat.inv

/-- Branch structure of round half to even: fl is the floor of the value,
    r / d its fractional part with 0 ≤ r < d; the tie 2 * r = d goes to
    the even neighbour. -/
def rheCore (fl r d : ℤ) : ℤ :=
  if 2 * r < d then fl
  else if d < 2 * r then fl + 1
  else if fl % 2 = 0 then fl else fl + 1

/-- Round half to even to the nearest integer, as Python round does:
    fdiv is floor division (the denominator is positive), so the first
    argument is the floor of q and the second the remainder of the
    numerator. -/
def roundHalfEven (q : ℚ) : ℤ :=
  rheCore (Int.fdiv q.num q.den) (q.num - Int.fdiv q.num q.den * (q.den : ℤ)) (q.den : ℤ)

/-- Python round(x, 3): round to the nearest multiple of 1/1000, ties to even. -/
def roundTo3 (q : ℚ) : ℚ := (roundHalfEven (q * 1000) : ℚ) / 1000

/-- q is an integer multiple of 1/1000 (a quantity with at most three decimals). -/
def threeDec (q : ℚ) : Prop := ∃ k : ℤ, q = (k : ℚ) / 1000

/-- A raw row of the RECORDS sheet, before date parsing.
    Fields mirror the columns Date, Product, Size, Quantity(Pcs/Meter),
    Quantity(Box/Roll), Action, Category.  A quantity cell that is not
    numeric is modelled as none; pandas to_numeric(errors=coerce).fillna(0)
    turns it into 0. -/
structure Row where
  dateStr : String
  product : String
  size : String
  qtyPcsRaw : Option ℚ
  qtyBoxRaw : Option ℚ
  action : String
  category : String
deriving DecidableEq, Repr, Inhabited

/-- A row after date parsing and numeric coercion, with the two derived
    Total columns.  calculate_total initialises both totals to 0 before
    the group walk (app.py lines 122 to 127). -/
structure PRow where
  date : Int
  product : String
  size : String
  qtyPcs : ℚ
  qtyBox : ℚ
  action : String
  category : String
  totalPcs : ℚ
  totalBox : ℚ
deriving DecidableEq, Repr, Inhabited

/-- One row of date parsing plus the numeric coercion and Total
    initialisation of app.py lines 110 and 122 to 127 (these touch
    disjoint columns, so the order does not matter). -/
def parseRow (p : String → Option Int) (r : Row) : Option PRow :=
  (p r.dateStr).map fun d =>
    { date := d, product := r.product, size := r.size,
      qtyPcs := r.qtyPcsRaw.getD 0, qtyBox := r.qtyBoxRaw.getD 0,
      action := r.action, category := r.category,
      totalPcs := 0, totalBox := 0 }

/-- pandas to_datetime over the whole column: raises (returns none) as
    soon as one cell fails under the given format. -/
def parseAll (p : String → Option Int) : List Row → Option (List PRow)
  | [] => some []
  | r :: rs =>
    match parseRow p r, parseAll p rs with
    | some x, some xs => some (x :: xs)
    | _, _ => none

/-- Signed contribution of a row in the Pcs/Meter dimension: the branch
    on Action at app.py line 135 adds the quantity when Action is exactly
    the string Add and subtracts it in every other case. -/
def signedPcs (r : PRow) : ℚ := if r.action = "Add" then r.qtyPcs else -r.qtyPcs

/-- Signed contribution of a row in the Box/Roll dimension. -/
def signedBox (r : PRow) : ℚ := if r.action = "Add" then r.qtyBox else -r.qtyBox

/-- Overwrite the two Total cells of a row (app.py lines 143 and 144). -/
def setTotals (r : PRow) (p b : ℚ) : PRow := { r with totalPcs := p, totalBox := b }

/-- A row with its Total cells reset to the initial 0.0: the projection to
    the columns that the group walk reads. -/
def core (r : PRow) : PRow := { r with totalPcs := 0, totalBox := 0 }

/-- The group walk of app.py lines 130 to 144, fused over the whole sorted
    table: acc holds the running pair of accumulators of every
    (Product, Size) group.  The accumulator carried forward is the
    unrounded value total_pcs or total_box; only the value stored into the
    row is rounded to three decimals. -/
def runningTotals (acc : String → String → ℚ × ℚ) : List PRow → List PRow
  | [] => []
  | r :: rs =>
    let a := acc r.product r.size
    let np := a.1 + signedPcs r
    let nb := a.2 + signedBox r
    setTotals r (roundTo3 np) (roundTo3 nb) ::
      runningTotals (fun p s => if p = r.product ∧ s = r.size then (np, nb) else acc p s) rs

/-- Comparison used by the sort at app.py line 119. -/
def dateLE (a b : PRow) : Prop := a.date ≤ b.date

instance : DecidableRel dateLE := fun a b => inferInstanceAs (Decidable (a.date ≤ b.date))

instance : IsTotal PRow dateLE := ⟨fun a b => le_total a.date b.date⟩

instance : IsTrans PRow dateLE := ⟨fun _ _ _ h₁ h₂ => le_trans h₁ h₂⟩

/-- data.sort_values applied to the Date column, embedded as a stable sort. -/
def sortByDate (l : List PRow) : List PRow := List.insertionSort dateLE l

/-- The computational body of calculate_total once dates are parsed:
    sort by date, then run the per-group accumulators. -/
def computeTotals (l : List PRow) : List PRow :=
  runningTotals (fun _ _ => ((0 : ℚ), (0 : ℚ))) (sortByDate l)

/-- Result of calculate_total: either the annotated table, or the branch of
    app.py lines 114 to 116 that reports the date error with st.error and
    returns the input table unchanged. -/
inductive CTResult where
  | ok : List PRow → CTResult
  | dateError : List Row → CTResult
deriving DecidableEq, Repr

/-- calculate_total (app.py lines 103 to 146).  pm is to_datetime with
    format mixed, pf the fallback with format %Y-%m-%d.  An empty table is
    returned unchanged at line 106. -/
def calculate_total (pm pf : String → Option Int) (rows : List Row) : CTResult :=
  if rows.isEmpty then .ok []
  else
    match parseAll pm rows with
    | some ps => .ok (computeTotals ps)
    | none =>
      match parseAll pf rows with
      | some ps => .ok (computeTotals ps)
      | none => .dateError rows

/-- The walk of one (Product, Size) group in isolation, started at the
    accumulator pair a: the inner loop of app.py lines 131 to 144. -/
def scanGroup (a : ℚ × ℚ) : List PRow → List PRow
  | [] => []
  | r :: rs =>
    let np := a.1 + signedPcs r
    let nb := a.2 + signedBox r
    setTotals r (roundTo3 np) (roundTo3 nb) :: scanGroup (np, nb) rs

/-- Restriction of a table to one (Product, Size) group. -/
def keyFilter (P S : String) (l : List PRow) : List PRow :=
  l.filter fun r => decide (r.product = P ∧ r.size = S)

/-- Running sums of a list of signed quantities starting from a:
    each output element is the previous one plus the next input. -/
def accSums (a : ℚ) : List ℚ → List ℚ
  | [] => []
  | q :: qs => (a + q) :: accSums (a + q) qs

/-- The claim under examination describes accumulators that are themselves
    rounded after each update, the rounded value being carried into the
    next row.  This variant follows that description, for comparison with
    scanGroup, which is the walk the source performs. -/
def roundedCarryScan (a : ℚ × ℚ) : List PRow → List PRow
  | [] => []
  | r :: rs =>
    let np := roundTo3 (a.1 + signedPcs r)
    let nb := roundTo3 (a.2 + signedBox r)
    setTotals r np nb :: roundedCarryScan (np, nb) rs

/- ----------------------------------------------------------------------
   Store adapter side (app.py main): current-quantity lookup, schema check
   of load_data, and the update flow behind the Update Inventory button.
   ---------------------------------------------------------------------- -/

/-- One row of a category sheet: columns PRODUCT, SPECIFICATION,
    QUANTITY(PCS/METER), QUANTITY(BOX/ROLL). -/
structure StockRow where
  product : String
  specification : String
  qtyPcs : ℚ
  qtyBox : ℚ
deriving DecidableEq, Repr, Inhabited

/-- Outcome of the current-quantity lookup of app.py lines 266 to 275. -/
inductive LookupResult where
  /-- values[0] of the two quantity columns of the first matching row. -/
  | found : ℚ → ℚ → LookupResult
  /-- Zero rows match: values[0] raises IndexError, and no try/except
      encloses these lines in main, so the exception is unhandled. -/
  | uncaughtIndexError : LookupResult
  /-- A NotFoundError reported to the user, as the specification asks for;
      no branch of the source produces this outcome. -/
  | notFoundReported : LookupResult
deriving DecidableEq, Repr

/-- The lookup of app.py lines 266 to 275: existing_data.loc applied to
    the (PRODUCT, SPECIFICATION) mask, then values[0] of each quantity
    column. -/
def getCurrentQuantity (sheet : List StockRow) (product specification : String) :
    LookupResult :=
  match sheet.filter fun r => decide (r.product = product ∧ r.specification = specification) with
  | [] => .uncaughtIndexError
  | r :: _ => .found r.qtyPcs r.qtyBox

/-- Required columns of the RECORDS sheet (app.py line 79). -/
def recordsRequiredColumns : List String :=
  ["Date", "Product", "Size", "Quantity(Pcs/Meter)", "Quantity(Box/Roll)", "Action", "Category"]

/-- Required columns of a category sheet (app.py line 87). -/
def categoryRequiredColumns : List String :=
  ["PRODUCT", "SPECIFICATION", "QUANTITY(PCS/METER)", "QUANTITY(BOX/ROLL)"]

/-- Which columns load_data requires of the named sheet. -/
def requiredColumns (sheetName : String) : List String :=
  if sheetName = "RECORDS" then recordsRequiredColumns else categoryRequiredColumns

/-- app.py line 75: drop every column whose name matches the regex
    anchored pattern Unnamed, that is, whose name begins with the
    characters of the word Unnamed. -/
def dropUnnamed (cols : List String) : List String :=
  cols.filter fun c => !("Unnamed".data.isPrefixOf c.data)

/-- Outcome of load_data at the level of the schema check. -/
inductive LoadOutcome where
  /-- st.error is shown and an empty DataFrame is returned (lines 81, 82
      and 89, 90). -/
  | schemaError : LoadOutcome
  /-- The check passed; the subsequent content processing is the
      calculate_total and numeric coercion modelled above. -/
  | loaded : List String → LoadOutcome
deriving DecidableEq, Repr

/-- load_data (app.py lines 67 to 101) at the level claims about its
    schema handling need: its column preprocessing and the required-column
    check.  The second component lists the sheets written; load_data calls
    conn.update nowhere, so it is empty on every path. -/
def load_data (sheetName : String) (cols : List String) : LoadOutcome × List String :=
  if ∀ c ∈ requiredColumns sheetName, c ∈ dropUnnamed cols
  then (.loaded (dropUnnamed cols), [])
  else (.schemaError, [])

/-- The two values of the Choose action radio button (app.py line 282). -/
inductive UAction where
  | add : UAction
  | remove : UAction
deriving DecidableEq, Repr

/-- The boundary enforced by st.number_input (app.py lines 285 to 316):
    both branches set min_value to 0.0, and the Remove branch sets
    max_value to the current quantity of the same dimension; a value
    outside the range never reaches the button handler. -/
def quantityInputOK (action : UAction) (cur q : ℚ) : Prop :=
  0 ≤ q ∧ (action = .remove → q ≤ cur)

instance (action : UAction) (cur q : ℚ) : Decidable (quantityInputOK action cur q) :=
  inferInstanceAs (Decidable (_ ∧ _))

/-- Outcome of the Update Inventory flow. -/
inductive UpdateOutcome where
  /-- A quantity outside the widget range: the handler never runs. -/
  | inputRejected : UpdateOutcome
  /-- Both quantities are 0: st.warning at line 352, nothing written. -/
  | zeroWarning : UpdateOutcome
  /-- Lines 321 to 344: the new snapshot quantities, and the sheets
      written, in order: the category sheet, then RECORDS. -/
  | applied : ℚ → ℚ → List String → UpdateOutcome
deriving DecidableEq, Repr

/-- Sheets written by an outcome. -/
def writesOf : UpdateOutcome → List String
  | .applied _ _ w => w
  | _ => []

/-- The Update Inventory flow of app.py lines 285 to 352: the widget
    boundary, then the positivity gate at line 320, then the computation
    of the new snapshot quantities and the two writes (conn.update of the
    category sheet at line 334, then the RECORDS rewrite inside
    log_inventory_change). -/
def updateInventory (action : UAction) (sheetName : String)
    (curPcs curBox qPcs qBox : ℚ) : UpdateOutcome :=
  if ¬(quantityInputOK action curPcs qPcs ∧ quantityInputOK action curBox qBox) then
    .inputRejected
  else if 0 < qPcs ∨ 0 < qBox then
    let newPcs := match action with
      | .add => roundTo3 (curPcs + qPcs)
      | .remove => roundTo3 (curPcs - qPcs)
    let newBox := match action with
      | .add => roundTo3 (curBox + qBox)
      | .remove => roundTo3 (curBox - qBox)
    .applied newPcs newBox [sheetName, "RECORDS"]
  else .zeroWarning

/- ----------------------------------------------------------------------
   Lemmas about the rounding function.
   ---------------------------------------------------------------------- -/

theorem rheCore_nonneg {fl : ℤ} (r d : ℤ) (h : 0 ≤ fl) : 0 ≤ rheCore fl r d := by
  unfold rheCore; split_ifs <;> omega

theorem roundHalfEven_intCast (k : ℤ) : roundHalfEven (k : ℚ) = k := by
  rw [roundHalfEven, Rat.num_intCast, Rat.den_intCast]
  simp [rheCore, Int.fdiv_one]

theorem roundHalfEven_nonneg {q : ℚ} (h : 0 ≤ q) : 0 ≤ roundHalfEven q :=
  rheCore_nonneg _ _ (Int.fdiv_nonneg (Rat.num_nonneg.mpr h) (Int.ofNat_nonneg _))

theorem roundTo3_nonneg {q : ℚ} (h : 0 ≤ q) : 0 ≤ roundTo3 q := by
  have h1 : (0 : ℤ) ≤ roundHalfEven (q * 1000) :=
    roundHalfEven_nonneg (by positivity)
  unfold roundTo3
  have h2 : (0 : ℚ) ≤ (roundHalfEven (q * 1000) : ℚ) := Int.cast_nonneg.mpr h1
  positivity

theorem roundTo3_threeDec {q : ℚ} (h : threeDec q) : roundTo3 q = q := by
  obtain ⟨k, rfl⟩ := h
  have hmul : ((k : ℚ) / 1000) * 1000 = (k : ℚ) := by field_simp
  rw [roundTo3, hmul, roundHalfEven_intCast]

theorem threeDec_add {a b : ℚ} : threeDec a → threeDec b → threeDec (a + b)
  | ⟨k, hk⟩, ⟨m, hm⟩ => ⟨k + m, by rw [hk, hm]; push_cast; ring⟩

theorem threeDec_neg {a : ℚ} : threeDec a → threeDec (-a)
  | ⟨k, hk⟩ => ⟨-k, by rw [hk]; push_cast; ring⟩

theorem threeDec_zero : threeDec 0 := ⟨0, by norm_num⟩

theorem threeDec_signedPcs {r : PRow} (h : threeDec r.qtyPcs) : threeDec (signedPcs r) := by
  unfold signedPcs
  split_ifs
  · exact h
  · exact threeDec_neg h

theorem threeDec_signedBox {r : PRow} (h : threeDec r.qtyBox) : threeDec (signedBox r) := by
  unfold signedBox
  split_ifs
  · exact h
  · exact threeDec_neg h

/- ----------------------------------------------------------------------
   Structural lemmas about the group walk.
   ---------------------------------------------------------------------- -/

theorem core_setTotals (r : PRow) (p b : ℚ) : core (setTotals r p b) = core r := rfl

theorem date_setTotals (r : PRow) (p b : ℚ) : (setTotals r p b).date = r.date := rfl

theorem runningTotals_map_core : ∀ (l : List PRow) (acc),
    (runningTotals acc l).map core = l.map core
  | [], _ => rfl
  | r :: rs, acc => by
    simp only [runningTotals, List.map_cons, core_setTotals, List.cons.injEq, true_and]
    exact runningTotals_map_core rs _

theorem core_eq_fields {r₁ r₂ : PRow} (h : core r₁ = core r₂) :
    r₁.product = r₂.product ∧ r₁.size = r₂.size ∧ signedPcs r₁ = signedPcs r₂ ∧
      signedBox r₁ = signedBox r₂ ∧ ∀ p b, setTotals r₁ p b = setTotals r₂ p b := by
  cases r₁
  cases r₂
  simp only [core, PRow.mk.injEq] at h
  obtain ⟨h1, h2, h3, h4, h5, h6, h7, -, -⟩ := h
  subst h1; subst h2; subst h3; subst h4; subst h5; subst h6; subst h7
  simp [signedPcs, signedBox, setTotals]

theorem runningTotals_congr : ∀ {l₁ l₂ : List PRow}, l₁.map core = l₂.map core →
    ∀ acc, runningTotals acc l₁ = runningTotals acc l₂
  | [], [], _, _ => rfl
  | r₁ :: t₁, r₂ :: t₂, h, acc => by
    simp only [List.map_cons, List.cons.injEq] at h
    obtain ⟨hr, ht⟩ := h
    obtain ⟨hprod, hsize, hsp, hsb, hset⟩ := core_eq_fields hr
    simp only [runningTotals, hprod, hsize, hsp, hsb, hset]
    rw [runningTotals_congr ht]

theorem runningTotals_map_date (l : List PRow) (acc) :
    (runningTotals acc l).map PRow.date = l.map PRow.date := by
  have h := runningTotals_map_core l acc
  have h2 : ∀ m : List PRow, m.map PRow.date = (m.map core).map PRow.date := by
    intro m
    rw [List.map_map]
    rfl
  rw [h2 (runningTotals acc l), h2 l, h]

theorem sorted_of_map_date_eq {l₁ l₂ : List PRow}
    (h : l₁.map PRow.date = l₂.map PRow.date) (hs : List.Sorted dateLE l₁) :
    List.Sorted dateLE l₂ := by
  have h₁ : List.Pairwise (· ≤ ·) (l₁.map PRow.date) := by
    rw [List.pairwise_map]
    exact hs
  rw [h] at h₁
  rw [List.pairwise_map] at h₁
  exact h₁

theorem sorted_sortByDate (l : List PRow) : List.Sorted dateLE (sortByDate l) :=
  List.sorted_insertionSort dateLE l

theorem sortByDate_of_sorted {l : List PRow} (h : List.Sorted dateLE l) :
    sortByDate l = l :=
  h.insertionSort_eq

theorem product_setTotals (r : PRow) (p b : ℚ) : (setTotals r p b).product = r.product := rfl

theorem size_setTotals (r : PRow) (p b : ℚ) : (setTotals r p b).size = r.size := rfl

theorem totalPcs_setTotals (r : PRow) (p b : ℚ) : (setTotals r p b).totalPcs = p := rfl

theorem totalBox_setTotals (r : PRow) (p b : ℚ) : (setTotals r p b).totalBox = b := rfl

theorem signedPcs_setTotals (r : PRow) (p b : ℚ) : signedPcs (setTotals r p b) = signedPcs r := rfl

theorem signedBox_setTotals (r : PRow) (p b : ℚ) : signedBox (setTotals r p b) = signedBox r := rfl

/-- Restricting the fused walk to one group gives the walk of that group
    alone, started at the accumulator pair of that group. -/
theorem keyFilter_runningTotals (P S : String) : ∀ (l : List PRow) (acc),
    keyFilter P S (runningTotals acc l) = scanGroup (acc P S) (keyFilter P S l)
  | [], _ => rfl
  | r :: t, acc => by
    by_cases h : r.product = P ∧ r.size = S
    · obtain ⟨h1, h2⟩ := h
      subst h1; subst h2
      simp only [runningTotals, keyFilter, List.filter_cons, product_setTotals,
        size_setTotals, decide_eq_true_eq, and_self, if_true]
      rw [← keyFilter, ← keyFilter, keyFilter_runningTotals r.product r.size t]
      simp [scanGroup]
    · have h' : ¬(P = r.product ∧ S = r.size) := fun hc => h ⟨hc.1.symm, hc.2.symm⟩
      simp only [runningTotals, keyFilter, List.filter_cons, product_setTotals,
        size_setTotals, decide_eq_true_eq]
      rw [if_neg (by exact_mod_cast h), if_neg (by exact_mod_cast h)]
      rw [← keyFilter, ← keyFilter, keyFilter_runningTotals P S t]
      simp only [if_neg h']

theorem scanGroup_map_core : ∀ (g : List PRow) (a),
    (scanGroup a g).map core = g.map core
  | [], _ => rfl
  | r :: t, a => by
    simp only [scanGroup, List.map_cons, core_setTotals, List.cons.injEq, true_and]
    exact scanGroup_map_core t _

theorem scanGroup_totalPcs : ∀ (g : List PRow) (a : ℚ × ℚ),
    (scanGroup a g).map PRow.totalPcs = (accSums a.1 (g.map signedPcs)).map roundTo3
  | [], _ => rfl
  | r :: t, a => by
    simp only [scanGroup, accSums, List.map_cons, totalPcs_setTotals, List.cons.injEq, true_and]
    exact scanGroup_totalPcs t _

theorem scanGroup_totalBox : ∀ (g : List PRow) (a : ℚ × ℚ),
    (scanGroup a g).map PRow.totalBox = (accSums a.2 (g.map signedBox)).map roundTo3
  | [], _ => rfl
  | r :: t, a => by
    simp only [scanGroup, accSums, List.map_cons, totalBox_setTotals, List.cons.injEq, true_and]
    exact scanGroup_totalBox t _

theorem scanGroup_eq_nil_iff {a : ℚ × ℚ} {g : List PRow} : scanGroup a g = [] ↔ g = [] := by
  cases g <;> simp [scanGroup]

/-- With three-decimal quantities and a three-decimal starting pair, the
    first row of a group walk stores exactly the start plus its own signed
    quantity, in both dimensions. -/
theorem scanGroup_getD_zero : ∀ (g : List PRow) (a : ℚ × ℚ),
    (∀ r ∈ g, threeDec r.qtyPcs ∧ threeDec r.qtyBox) → threeDec a.1 → threeDec a.2 →
    g ≠ [] →
    ((scanGroup a g).getD 0 default).totalPcs
        = a.1 + signedPcs ((scanGroup a g).getD 0 default) ∧
    ((scanGroup a g).getD 0 default).totalBox
        = a.2 + signedBox ((scanGroup a g).getD 0 default)
  | [], _, _, _, _, hg => absurd rfl hg
  | r :: t, a, h3, ha1, ha2, _ => by
    have hq := h3 r (List.mem_cons_self r t)
    have hp : threeDec (a.1 + signedPcs r) := threeDec_add ha1 (threeDec_signedPcs hq.1)
    have hb : threeDec (a.2 + signedBox r) := threeDec_add ha2 (threeDec_signedBox hq.2)
    simp only [scanGroup, List.getD_cons_zero, totalPcs_setTotals, totalBox_setTotals,
      signedPcs_setTotals, signedBox_setTotals]
    exact ⟨roundTo3_threeDec hp, roundTo3_threeDec hb⟩

/-- With three-decimal quantities, each later row of a group walk stores
    the stored total of the previous row plus its own signed quantity. -/
theorem scanGroup_getD_succ : ∀ (g : List PRow) (a : ℚ × ℚ) (i : ℕ),
    (∀ r ∈ g, threeDec r.qtyPcs ∧ threeDec r.qtyBox) → threeDec a.1 → threeDec a.2 →
    i + 1 < (scanGroup a g).length →
    ((scanGroup a g).getD (i+1) default).totalPcs
        = ((scanGroup a g).getD i default).totalPcs
          + signedPcs ((scanGroup a g).getD (i+1) default) ∧
    ((scanGroup a g).getD (i+1) default).totalBox
        = ((scanGroup a g).getD i default).totalBox
          + signedBox ((scanGroup a g).getD (i+1) default)
  | [], _, i, _, _, _, hlen => by simp [scanGroup] at hlen
  | r :: t, a, 0, h3, ha1, ha2, hlen => by
    have hq := h3 r (List.mem_cons_self r t)
    have hp : threeDec (a.1 + signedPcs r) := threeDec_add ha1 (threeDec_signedPcs hq.1)
    have hb : threeDec (a.2 + signedBox r) := threeDec_add ha2 (threeDec_signedBox hq.2)
    have ht3 : ∀ x ∈ t, threeDec x.qtyPcs ∧ threeDec x.qtyBox :=
      fun x hx => h3 x (List.mem_cons_of_mem r hx)
    have htne : t ≠ [] := by
      intro he
      subst he
      simp [scanGroup] at hlen
    have hz := scanGroup_getD_zero t (a.1 + signedPcs r, a.2 + signedBox r) ht3 hp hb htne
    simp only [scanGroup, List.getD_cons_succ, List.getD_cons_zero, totalPcs_setTotals,
      totalBox_setTotals]
    rw [roundTo3_threeDec hp, roundTo3_threeDec hb]
    exact hz
  | r :: t, a, i + 1, h3, ha1, ha2, hlen => by
    have hq := h3 r (List.mem_cons_self r t)
    have hp : threeDec (a.1 + signedPcs r) := threeDec_add ha1 (threeDec_signedPcs hq.1)
    have hb : threeDec (a.2 + signedBox r) := threeDec_add ha2 (threeDec_signedBox hq.2)
    have ht3 : ∀ x ∈ t, threeDec x.qtyPcs ∧ threeDec x.qtyBox :=
      fun x hx => h3 x (List.mem_cons_of_mem r hx)
    have hlen' : i + 1 < (scanGroup (a.1 + signedPcs r, a.2 + signedBox r) t).length := by
      simpa [scanGroup] using Nat.lt_of_succ_lt_succ hlen
    have hstep := scanGroup_getD_succ t (a.1 + signedPcs r, a.2 + signedBox r) i ht3 hp hb hlen'
    simpa [scanGroup, List.getD_cons_succ] using hstep

/-- If the whole-column parse succeeds, the date cell of every row parses under
    that format. -/
theorem parseAll_mem_isSome {p : String → Option Int} : ∀ {rows : List Row} {ps : List PRow},
    parseAll p rows = some ps → ∀ r ∈ rows, (p r.dateStr).isSome
  | [], _, _, r, hr => absurd hr (List.not_mem_nil r)
  | r₀ :: rs, ps, h, r, hr => by
    unfold parseAll at h
    cases hp : parseRow p r₀ with
    | none => rw [hp] at h; cases h
    | some x =>
      rw [hp] at h
      cases hps : parseAll p rs with
      | none => rw [hps] at h; cases h
      | some xs =>
        rcases List.mem_cons.mp hr with hEq | hmem
        · subst hEq
          unfold parseRow at hp
          cases hd : p r.dateStr with
          | none => rw [hd] at hp; cases hp
          | some d => simp [hd]
        · exact parseAll_mem_isSome hps r hmem

/- ----------------------------------------------------------------------
   Concrete tables used by witnesses and counterexamples.
   ---------------------------------------------------------------------- -/

/-- The three-entry example of the claim: quantities 10, 4, 2 with actions
    Add, Remove, Add in one (P, S) group over ascending dates. -/
def exampleRows : List PRow :=
  [ { date := 1, product := "P", size := "S", qtyPcs := 10, qtyBox := 0,
      action := "Add", category := "GEN MDSE", totalPcs := 0, totalBox := 0 },
    { date := 2, product := "P", size := "S", qtyPcs := 4, qtyBox := 0,
      action := "Remove", category := "GEN MDSE", totalPcs := 0, totalBox := 0 },
    { date := 3, product := "P", size := "S", qtyPcs := 2, qtyBox := 0,
      action := "Add", category := "GEN MDSE", totalPcs := 0, totalBox := 0 } ]

/-- Two Add entries of 1/16 = 0.0625 in one group: quantities with more
    than three decimal places, on which the unrounded-carry walk of the
    source and a rounded-carry walk come apart. -/
def fineRows : List PRow :=
  [ { date := 1, product := "P", size := "S", qtyPcs := 1/16, qtyBox := 0,
      action := "Add", category := "TOOLS", totalPcs := 0, totalBox := 0 },
    { date := 2, product := "P", size := "S", qtyPcs := 1/16, qtyBox := 0,
      action := "Add", category := "TOOLS", totalPcs := 0, totalBox := 0 } ]

/- ----------------------------------------------------------------------
   Claim theorems.
   ---------------------------------------------------------------------- -/

/-- Claim C2: calculate_total is idempotent on its own output.  Applied to
    a table whose dates are already parsed and whose Total columns are
    already present, the computational body of calculate_total reproduces
    its own output exactly, in particular every Total value. -/
theorem claim_C2_idempotent (l : List PRow) :
    computeTotals (computeTotals l) = computeTotals l := by
  unfold computeTotals
  have hs : List.Sorted dateLE
      (runningTotals (fun _ _ => ((0 : ℚ), (0 : ℚ))) (sortByDate l)) :=
    sorted_of_map_date_eq (runningTotals_map_date (sortByDate l) _).symm (sorted_sortByDate l)
  rw [sortByDate_of_sorted hs]
  exact runningTotals_congr (runningTotals_map_core (sortByDate l) _) _

/-- Claim C3 as stated is false on the code: with the two 0.0625 Add
    entries of fineRows, the walk of the source stores [0.062, 0.125]
    because the carried accumulator is not rounded, while the
    rounded-carry walk described by the claim stores [0.062, 0.124]. -/
theorem claim_C3_counterexample :
    (computeTotals fineRows).map PRow.totalPcs = [62/1000, 125/1000] ∧
    (roundedCarryScan (0, 0) (sortByDate fineRows)).map PRow.totalPcs = [62/1000, 124/1000] ∧
    (computeTotals fineRows).map PRow.totalPcs ≠
      (roundedCarryScan (0, 0) (sortByDate fineRows)).map PRow.totalPcs :=
  ⟨by decide, by decide, by decide⟩

/-- Claim C3 (amended): two independent accumulators per group are
    maintained, but they are carried unrounded; only the stored Total of
    each row is the accumulator rounded to three decimals.  Each group of
    the output is the group walk started at (0, 0), and the stored totals
    are the running signed sums, each rounded to three decimals. -/
theorem claim_C3_amended :
    (∀ (l : List PRow) (P S : String),
        keyFilter P S (computeTotals l)
          = scanGroup (0, 0) (keyFilter P S (sortByDate l))) ∧
    (∀ (g : List PRow) (a : ℚ × ℚ),
        (scanGroup a g).map PRow.totalPcs = (accSums a.1 (g.map signedPcs)).map roundTo3 ∧
        (scanGroup a g).map PRow.totalBox = (accSums a.2 (g.map signedBox)).map roundTo3) :=
  ⟨fun l P S => keyFilter_runningTotals P S (sortByDate l) _,
   fun g a => ⟨scanGroup_totalPcs g a, scanGroup_totalBox g a⟩⟩

/-- Claim C9: a row whose Action is anything other than the exact string
    Add is treated as a removal: at any accumulator state, the walk
    subtracts its quantities and stores the rounded results. -/
theorem claim_C9_non_add_subtracts (acc : String → String → ℚ × ℚ) (r : PRow)
    (rs : List PRow) (h : r.action ≠ "Add") :
    (runningTotals acc (r :: rs)).head? = some (setTotals r
        (roundTo3 ((acc r.product r.size).1 - r.qtyPcs))
        (roundTo3 ((acc r.product r.size).2 - r.qtyBox))) := by
  have h1 : signedPcs r = -r.qtyPcs := by unfold signedPcs; rw [if_neg h]
  have h2 : signedBox r = -r.qtyBox := by unfold signedBox; rw [if_neg h]
  simp [runningTotals, h1, h2, sub_eq_add_neg]

/-- A row whose Action cell reads ADD, not Add. -/
def oddActionRow : PRow :=
  { date := 1, product := "P", size := "S", qtyPcs := 1, qtyBox := 2,
    action := "ADD", category := "TOOLS", totalPcs := 0, totalBox := 0 }

/-- Witness for claim C9 at a concrete row whose Action is ADD. -/
theorem claim_C9_witness :
    (runningTotals (fun _ _ => ((5 : ℚ), (7 : ℚ))) [oddActionRow]).head?
      = some (setTotals oddActionRow (roundTo3 ((5 : ℚ) - 1)) (roundTo3 ((7 : ℚ) - 2))) :=
  claim_C9_non_add_subtracts _ oddActionRow [] (by decide)

/-- Claim C1 as stated is false on the code: in the group of fineRows the
    second stored total is 0.125, but the first stored total plus the
    second signed quantity is 0.062 + 0.0625 = 0.1245, because the stored
    totals are rounded while the carried accumulator is not. -/
theorem claim_C1_counterexample :
    ((keyFilter "P" "S" (computeTotals fineRows)).getD 1 default).totalPcs ≠
      ((keyFilter "P" "S" (computeTotals fineRows)).getD 0 default).totalPcs
        + signedPcs ((keyFilter "P" "S" (computeTotals fineRows)).getD 1 default) := by
  decide

/-- Claim C1 (amended): when every quantity of the table is an integer
    multiple of 0.001, as the three-decimal input widgets produce, the
    totals of every (Product, Size) group, taken in the output order of
    the group, satisfy the stated recurrence in both quantity dimensions:
    the first row stores its own signed quantity and each later row
    stores the previous total plus its own signed quantity.  In general
    the stored total is the unrounded running sum rounded to three
    decimals, which breaks the recurrence for finer quantities.  The
    example table with quantities 10, 4, 2 and actions Add, Remove, Add
    yields the totals 10, 6, 8. -/
theorem claim_C1_amended :
    (∀ (l : List PRow) (P S : String),
      (∀ r ∈ l, threeDec r.qtyPcs ∧ threeDec r.qtyBox) →
      (keyFilter P S (computeTotals l) ≠ [] →
        ((keyFilter P S (computeTotals l)).getD 0 default).totalPcs
          = signedPcs ((keyFilter P S (computeTotals l)).getD 0 default) ∧
        ((keyFilter P S (computeTotals l)).getD 0 default).totalBox
          = signedBox ((keyFilter P S (computeTotals l)).getD 0 default)) ∧
      (∀ i : ℕ, i + 1 < (keyFilter P S (computeTotals l)).length →
        ((keyFilter P S (computeTotals l)).getD (i+1) default).totalPcs
          = ((keyFilter P S (computeTotals l)).getD i default).totalPcs
            + signedPcs ((keyFilter P S (computeTotals l)).getD (i+1) default) ∧
        ((keyFilter P S (computeTotals l)).getD (i+1) default).totalBox
          = ((keyFilter P S (computeTotals l)).getD i default).totalBox
            + signedBox ((keyFilter P S (computeTotals l)).getD (i+1) default))) ∧
    (computeTotals exampleRows).map PRow.totalPcs = [10, 6, 8] := by
  constructor
  · intro l P S h3
    have hkey : keyFilter P S (computeTotals l)
        = scanGroup ((0 : ℚ), (0 : ℚ)) (keyFilter P S (sortByDate l)) :=
      keyFilter_runningTotals P S (sortByDate l) _
    have h3g : ∀ r ∈ keyFilter P S (sortByDate l), threeDec r.qtyPcs ∧ threeDec r.qtyBox := by
      intro r hr
      exact h3 r ((List.mem_insertionSort _).mp (List.mem_of_mem_filter hr))
    rw [hkey]
    constructor
    · intro hne
      have hgne : keyFilter P S (sortByDate l) ≠ [] := by
        intro he
        rw [he] at hne
        exact hne rfl
      have hz := scanGroup_getD_zero (keyFilter P S (sortByDate l)) (0, 0) h3g
        threeDec_zero threeDec_zero hgne
      simpa using hz
    · intro i hlen
      exact scanGroup_getD_succ (keyFilter P S (sortByDate l)) (0, 0) i h3g
        threeDec_zero threeDec_zero hlen
  · decide

/-- Witness for the amended claim C1: the recurrence instance between the
    first and second rows of the example group, with the three-decimal
    hypothesis discharged at the example table. -/
theorem claim_C1_witness :
    ((keyFilter "P" "S" (computeTotals exampleRows)).getD 1 default).totalPcs
      = ((keyFilter "P" "S" (computeTotals exampleRows)).getD 0 default).totalPcs
        + signedPcs ((keyFilter "P" "S" (computeTotals exampleRows)).getD 1 default) := by
  have h3 : ∀ r ∈ exampleRows, threeDec r.qtyPcs ∧ threeDec r.qtyBox := by
    intro r hr
    simp only [exampleRows, List.mem_cons, List.not_mem_nil, or_false] at hr
    rcases hr with rfl | rfl | rfl
    · exact ⟨⟨10000, by norm_num⟩, ⟨0, by norm_num⟩⟩
    · exact ⟨⟨4000, by norm_num⟩, ⟨0, by norm_num⟩⟩
    · exact ⟨⟨2000, by norm_num⟩, ⟨0, by norm_num⟩⟩
  exact ((claim_C1_amended.1 exampleRows "P" "S" h3).2 0 (by decide)).1

/-- Claim C5: calculate_total first attempts the primary date format; on
    failure it retries exactly the one fallback format; if both fail it
    reports the error and returns the table unchanged; and an annotated
    table is only ever produced from rows whose dates parsed. -/
theorem claim_C5_date_fallback (pm pf : String → Option Int) (rows : List Row) :
    (∀ ps, parseAll pm rows = some ps →
        calculate_total pm pf rows = .ok (computeTotals ps)) ∧
    (parseAll pm rows = none → ∀ ps, parseAll pf rows = some ps →
        calculate_total pm pf rows = .ok (computeTotals ps)) ∧
    (parseAll pm rows = none → parseAll pf rows = none →
        calculate_total pm pf rows = .dateError rows) ∧
    (∀ out, calculate_total pm pf rows = .ok out →
        (∀ r ∈ rows, (pm r.dateStr).isSome) ∨ (∀ r ∈ rows, (pf r.dateStr).isSome)) := by
  match rows with
  | [] =>
    refine ⟨?_, ?_, ?_, ?_⟩
    · intro ps hps
      cases hps
      rfl
    · intro hnone
      cases hnone
    · intro hnone
      cases hnone
    · intro out _
      exact Or.inl (fun r hr => absurd hr (List.not_mem_nil r))
  | r₀ :: rs =>
    have hne : ((r₀ :: rs : List Row).isEmpty) = false := rfl
    refine ⟨?_, ?_, ?_, ?_⟩
    · intro ps hps
      unfold calculate_total
      rw [hne]
      simp only [Bool.false_eq_true, if_false]
      rw [hps]
    · intro hm ps hps
      unfold calculate_total
      rw [hne]
      simp only [Bool.false_eq_true, if_false]
      rw [hm, hps]
    · intro hm hf
      unfold calculate_total
      rw [hne]
      simp only [Bool.false_eq_true, if_false]
      rw [hm, hf]
    · intro out hout
      unfold calculate_total at hout
      rw [hne] at hout
      simp only [Bool.false_eq_true, if_false] at hout
      cases hm : parseAll pm (r₀ :: rs) with
      | some ps => exact Or.inl (parseAll_mem_isSome hm)
      | none =>
        rw [hm] at hout
        cases hf : parseAll pf (r₀ :: rs) with
        | some ps => exact Or.inr (parseAll_mem_isSome hf)
        | none =>
          rw [hf] at hout
          cases hout

/-- A row whose date cell parses under no format. -/
def badDateRow : Row :=
  { dateStr := "nodate", product := "P", size := "S", qtyPcsRaw := some 1,
    qtyBoxRaw := some 0, action := "Add", category := "TOOLS" }

/-- Witness for claim C5: with both parsers failing on the single row, the
    table comes back unchanged in the reported-error result. -/
theorem claim_C5_witness :
    calculate_total (fun _ => none) (fun _ => none) [badDateRow]
      = .dateError [badDateRow] :=
  (claim_C5_date_fallback (fun _ => none) (fun _ => none) [badDateRow]).2.2.1 rfl rfl

/-- Claim C6 as stated is false on the code: with zero matching rows the
    lookup hits values[0] of an empty selection, an IndexError that no
    handler in main catches; no reported NotFoundError is produced. -/
theorem claim_C6_counterexample :
    getCurrentQuantity [] "P" "S" = .uncaughtIndexError ∧
    getCurrentQuantity [] "P" "S" ≠ .notFoundReported :=
  ⟨rfl, by decide⟩

/-- Claim C6 (amended): with at least one matching row the lookup
    deterministically returns the quantities of the first match and no
    exception occurs, also when several rows match; with zero matching
    rows it raises an uncaught IndexError instead of a reported
    NotFoundError. -/
theorem claim_C6_amended (sheet : List StockRow) (product specification : String) :
    (∀ m ms, (sheet.filter fun r =>
          decide (r.product = product ∧ r.specification = specification)) = m :: ms →
        getCurrentQuantity sheet product specification = .found m.qtyPcs m.qtyBox) ∧
    ((sheet.filter fun r =>
          decide (r.product = product ∧ r.specification = specification)) = [] →
        getCurrentQuantity sheet product specification = .uncaughtIndexError) := by
  constructor
  · intro m ms h
    unfold getCurrentQuantity
    rw [h]
  · intro h
    unfold getCurrentQuantity
    rw [h]

/-- A category sheet in which two rows carry the same (P, S) key. -/
def dupSheet : List StockRow :=
  [ { product := "P", specification := "S", qtyPcs := 5, qtyBox := 1 },
    { product := "P", specification := "S", qtyPcs := 7, qtyBox := 2 } ]

/-- Witness for the amended claim C6: on a sheet with a duplicated key the
    lookup returns the quantities of the first matching row. -/
theorem claim_C6_witness :
    getCurrentQuantity dupSheet "P" "S" = .found 5 1 :=
  (claim_C6_amended dupSheet "P" "S").1
    { product := "P", specification := "S", qtyPcs := 5, qtyBox := 1 }
    [{ product := "P", specification := "S", qtyPcs := 7, qtyBox := 2 }] (by decide)

/-- Claim C7: whenever a required column of the named sheet is absent
    after preprocessing, load_data reports the schema violation and
    returns an empty table, and no sheet is written. -/
theorem claim_C7_schema_error (sheetName : String) (cols : List String)
    (h : ∃ c ∈ requiredColumns sheetName, c ∉ dropUnnamed cols) :
    load_data sheetName cols = (.schemaError, []) := by
  unfold load_data
  rw [if_neg]
  intro hall
  obtain ⟨c, hc, hnotin⟩ := h
  exact hnotin (hall c hc)

/-- Witness for claim C7: a RECORDS table missing the Action column. -/
theorem claim_C7_witness :
    load_data "RECORDS" ["Date", "Product", "Size", "Quantity(Pcs/Meter)",
        "Quantity(Box/Roll)", "Category"] = (.schemaError, []) :=
  claim_C7_schema_error _ _ ⟨"Action", by decide, by decide⟩

/-- Claim C8: a Remove whose requested quantity exceeds the current
    quantity in either dimension is stopped at the widget boundary, with
    no sheet written; and any Remove that reaches the write path leaves
    both stored quantities nonnegative when the current quantities were
    nonnegative. -/
theorem claim_C8_remove_boundary (sheetName : String) (curPcs curBox qPcs qBox : ℚ) :
    ((curPcs < qPcs ∨ curBox < qBox) →
        updateInventory .remove sheetName curPcs curBox qPcs qBox = .inputRejected ∧
        writesOf (updateInventory .remove sheetName curPcs curBox qPcs qBox) = []) ∧
    (0 ≤ curPcs → 0 ≤ curBox →
        ∀ n b w, updateInventory .remove sheetName curPcs curBox qPcs qBox = .applied n b w →
          0 ≤ n ∧ 0 ≤ b) := by
  constructor
  · intro hover
    have hno : ¬(quantityInputOK .remove curPcs qPcs ∧ quantityInputOK .remove curBox qBox) := by
      rintro ⟨h1, h2⟩
      rcases hover with hc | hc
      · exact absurd (h1.2 rfl) (not_le.mpr hc)
      · exact absurd (h2.2 rfl) (not_le.mpr hc)
    have heq : updateInventory .remove sheetName curPcs curBox qPcs qBox = .inputRejected := by
      unfold updateInventory
      rw [if_pos hno]
    exact ⟨heq, by rw [heq]; rfl⟩
  · intro hcp hcb n b w happ
    unfold updateInventory at happ
    by_cases hok : quantityInputOK .remove curPcs qPcs ∧ quantityInputOK .remove curBox qBox
    · rw [if_neg (not_not_intro hok)] at happ
      by_cases hq : 0 < qPcs ∨ 0 < qBox
      · rw [if_pos hq] at happ
        have hgoal : (0 : ℚ) ≤ roundTo3 (curPcs - qPcs) ∧ (0 : ℚ) ≤ roundTo3 (curBox - qBox) :=
          ⟨roundTo3_nonneg (sub_nonneg.mpr (hok.1.2 rfl)),
            roundTo3_nonneg (sub_nonneg.mpr (hok.2.2 rfl))⟩
        cases happ
        exact hgoal
      · rw [if_neg hq] at happ
        cases happ
    · rw [if_pos hok] at happ
      cases happ

/-- Witness for claim C8: an over-balance Remove is rejected with no
    write, and an in-range Remove that reaches the write path leaves both
    quantities nonnegative. -/
theorem claim_C8_witness :
    updateInventory .remove "TOOLS" 5 2 10 0 = .inputRejected ∧
    ((0 : ℚ) ≤ 2 ∧ (0 : ℚ) ≤ 1) := by
  constructor
  · exact ((claim_C8_remove_boundary "TOOLS" 5 2 10 0).1 (Or.inl (by norm_num))).1
  · exact (claim_C8_remove_boundary "TOOLS" 5 2 3 1).2 (by norm_num) (by norm_num)
      2 1 ["TOOLS", "RECORDS"] (by decide)

/-- Claim C10: a submission with both quantities equal to 0 produces only
    the warning; nothing is written to the category sheet or to RECORDS. -/
theorem claim_C10_zero_warning (action : UAction) (sheetName : String)
    (curPcs curBox : ℚ) (hp : 0 ≤ curPcs) (hb : 0 ≤ curBox) :
    updateInventory action sheetName curPcs curBox 0 0 = .zeroWarning ∧
    writesOf (updateInventory action sheetName curPcs curBox 0 0) = [] := by
  have hok : quantityInputOK action curPcs 0 ∧ quantityInputOK action curBox 0 :=
    ⟨⟨le_refl 0, fun _ => hp⟩, ⟨le_refl 0, fun _ => hb⟩⟩
  have h1 : updateInventory action sheetName curPcs curBox 0 0 = .zeroWarning := by
    unfold updateInventory
    rw [if_neg (not_not_intro hok), if_neg (by simp)]
  exact ⟨h1, by rw [h1]; rfl⟩

/-- Witness for claim C10 at a concrete state. -/
theorem claim_C10_witness :
    updateInventory .add "TOOLS" 5 2 0 0 = .zeroWarning :=
  (claim_C10_zero_warning .add "TOOLS" 5 2 (by norm_num) (by norm_num)).1

end HJM
